import Mathlib

/-!
Verification of the model-student repository's model-loading core.

This file shallowly embeds the JavaScript modules `src/lib/model-loader.js`
and `src/pages/summarize/summarize-logic.js`:

* JS strings become `String`, JS values passed through option objects become
  the inductive `JsVal` (with `JsVal.undef` modelling `undefined`), and JS
  object literals used as dictionaries become association lists `JsObj` with
  spread/update semantics (`objSet`, `objSpread`).
* The loader closure's mutable environment (the `Map` cache, the promise
  allocator, and the sequence of invocations of the injected `pipelineFn`)
  becomes the explicit state `LoaderState`; promises are identified by
  numeric ids (reference identity of a promise is equality of ids), and the
  settling of a promise is the explicit step `settlePromise`.
* Fallible async results are `Option`: `none` models the `null` sentinel the
  loader resolves to on failure (the loader never rejects).
-/

/-- A JavaScript value, as far as the option objects of the loader need:
`undef` models `undefined`, `jsNull` models `null`, and `fn id` models a
function reference (two functions are the same reference iff ids agree). -/
inductive JsVal where
  | undef
  | jsNull
  | bool (b : Bool)
  | num (q : ℚ)
  | str (s : String)
  | fn (id : Nat)
deriving DecidableEq

/-- A JS object literal used as a dictionary: an association list from
property names to values.  A genuine JS object has no duplicate keys; where
a statement needs this, it carries a `Nodup` hypothesis. -/
def JsObj : Type := List (String × JsVal)

instance : DecidableEq JsObj := by
  unfold JsObj
  infer_instance

/-- Property read `obj[k]`: the first binding for `k`, if any. -/
def objGet (obj : List (String × JsVal)) (k : String) : Option JsVal :=
  (obj.find? (fun kv => kv.1 = k)).map (fun kv => kv.2)

/-- Property write `obj[k] = v`: replace an existing binding in place,
otherwise append a new one (JS object update semantics). -/
def objSet : List (String × JsVal) → String → JsVal → List (String × JsVal)
  | [], k, v => [(k, v)]
  | kv :: rest, k, v =>
      if kv.1 = k then (k, v) :: rest else kv :: objSet rest k v

/-- Spread `{ ...base, ...ext }`: later properties override earlier ones. -/
def objSpread (base ext : List (String × JsVal)) : List (String × JsVal) :=
  ext.foldl (fun acc kv => objSet acc kv.1 kv.2) base

/-- JS truthiness, for the values of `JsVal`. -/
def truthy : JsVal → Bool
  | .undef => false
  | .jsNull => false
  | .bool b => b
  | .num q => decide (q ≠ 0)
  | .str s => decide (s ≠ "")
  | .fn _ => true

/-- JS disjunction `a || b`: `a` when truthy, else `b`. -/
def jsOr (a b : JsVal) : JsVal :=
  if truthy a then a else b

/-- The LoadKey of `src/lib/model-loader.js`: the template literal
`` `${task}::${model}` ``. -/
def mkLoadKey (task model : String) : String :=
  task ++ "::" ++ model

/-- Association-list lookup (used for the cache `Map` and for the
`transitions` object of the status machine). -/
def assocGet {α : Type} : List (String × α) → String → Option α
  | [], _ => none
  | (k, v) :: rest, key => if key = k then some v else assocGet rest key

/-- The options object the loader hands to `pipelineFn`:
`{ dtype: 'q8', progress_callback: onProgress || undefined, ...options }`
where `{ onProgress, ...options }` destructures the caller's argument. -/
def buildPipelineOptions (callerOpts : List (String × JsVal)) :
    List (String × JsVal) :=
  let onProgress := (objGet callerOpts "onProgress").getD .undef
  let options := callerOpts.filter (fun kv => kv.1 ≠ "onProgress")
  objSpread [("dtype", .str "q8"), ("progress_callback", jsOr onProgress .undef)]
    options

/-- The state of one `createLoader` closure: the dedup cache (a `Map` from
LoadKey to the stored promise, identified by id), the id the next created
promise will get, and the record of every invocation of the injected
`pipelineFn`, in order, with the exact arguments it received. -/
structure LoaderState where
  cache : List (String × Nat)
  nextId : Nat
  calls : List (String × String × List (String × JsVal))
deriving DecidableEq

/-- The function `loadModel(task, model, ...)`, with its
`{ onProgress, ...options } = {}` parameter destructuring, from
`src/lib/model-loader.js`.  A cache hit returns the stored promise and
leaves the state untouched; a miss invokes `pipelineFn` with the merged
options (recorded in `calls`), stores the fresh promise under the key, and
returns it.  The returned `Nat` is the promise reference. -/
def loadModel (task model : String) (callerOpts : List (String × JsVal))
    (st : LoaderState) : Nat × LoaderState :=
  let key := mkLoadKey task model
  match assocGet st.cache key with
  | some p => (p, st)
  | none =>
      let p := st.nextId
      (p, { cache := st.cache ++ [(key, p)]
            nextId := p + 1
            calls := st.calls ++ [(task, model, buildPipelineOptions callerOpts)] })

/-- Settling of the promise stored under `key`, following the `.catch`
handler of `loadModel`: a fulfilled acquisition leaves the cache alone and
the promise resolves to its value; a rejected acquisition deletes the cache
entry and the promise resolves to `none` (the `null` sentinel) — the
result type `Option V` has no rejection channel at all. -/
def settlePromise {V : Type} (key : String) (outcome : Except String V)
    (st : LoaderState) : Option V × LoaderState :=
  match outcome with
  | .ok v => (some v, st)
  | .error _ => (none, { st with cache := st.cache.filter (fun kv => kv.1 ≠ key) })

/-- The `transitions` object of the model-status machine in
`src/lib/model-loader.js`, as an association list of rows. -/
def transitions : List (String × List (String × String)) :=
  [ ("idle",    [("LOAD_START", "loading")]),
    ("loading", [("LOAD_SUCCESS", "ready"), ("LOAD_FAILURE", "error")]),
    ("error",   [("RETRY", "loading")]),
    ("ready",   []) ]

/-- The function `nextModelStatus(current, event)`, i.e.
`transitions[current]?.[event] ?? current`, with `obj[k]` modelled as
own-property lookup: exact on the table's own keys (none of the four state
or event names collides with an `Object.prototype` property), while the
prototype-chain behavior on arbitrary strings is refined by
`nextModelStatusJs` below. -/
def nextModelStatus (current event : String) : String :=
  match assocGet transitions current with
  | some row => (assocGet row event).getD current
  | none => current

/-- The string-keyed property names every object literal inherits from
`Object.prototype` (ECMA-262, with the Annex B accessors): looking one of
these up on `transitions` or on one of its rows finds a non-nullish
inherited value (a function, or an object for `__proto__`), never
`undefined`. -/
def objectProtoProps : List String :=
  ["constructor", "hasOwnProperty", "isPrototypeOf", "propertyIsEnumerable",
   "toLocaleString", "toString", "valueOf", "__proto__",
   "__defineGetter__", "__defineSetter__", "__lookupGetter__",
   "__lookupSetter__"]

/-- What the JS expression `transitions[current]?.[event] ?? current` can
evaluate to once the prototype chain is taken into account:
`statusStr` is a string — an own entry of the table or the `??` fallback to
`current`; `protoVal path` is the non-nullish value inherited from
`Object.prototype` at `path` (a function, or an object for `__proto__`),
which the `??` fallback does not replace; `functionProp fnPath event` marks
an access that happened on an inherited function/object itself (reached
when `current` is an inherited name) — its value (an own or
`Function.prototype` property, a poisoned accessor that throws, or
`undefined` falling back to `current`) is outside the modelled fragment
and is excluded by hypothesis from every theorem below. -/
inductive JsLookup where
  | statusStr (s : String)
  | protoVal (path : String)
  | functionProp (fnPath event : String)
deriving DecidableEq

/-- Prototype-chain-aware reading of `nextModelStatus`:
`transitions[current]` is the own row if `current` is one of the four
states, else the inherited `Object.prototype` member for an inherited name,
else `undefined` (so `?.` short-circuits and `??` yields `current`).  On an
own row, `row[event]` is the own entry if listed, else the inherited
member for an inherited name (non-nullish, so it escapes the `??`
fallback), else `undefined` and `??` yields `current`. -/
def nextModelStatusJs (current event : String) : JsLookup :=
  match assocGet transitions current with
  | some row =>
      match assocGet row event with
      | some s => .statusStr s
      | none =>
          if event ∈ objectProtoProps then
            .protoVal ("Object.prototype." ++ event)
          else
            .statusStr current
  | none =>
      if current ∈ objectProtoProps then
        .functionProp ("Object.prototype." ++ current) event
      else
        .statusStr current

/-- A progress event as `formatProgress` reads it: a status tag, a file
name (`none` when the property is absent, i.e. `undefined`), and the
numeric `progress` percentage (`none` when absent; arithmetic on an absent
number yields `NaN` downstream). -/
structure ProgressEvent where
  status : String
  file : Option String
  progress : Option ℚ
deriving DecidableEq

/-- The display shape `formatProgress` produces.  `percent` is `none`
exactly when the JS value would be `NaN` (rounding a missing field). -/
structure ProgressDisplay where
  percent : Option ℤ
  isIndeterminate : Bool
  file : Option String
deriving DecidableEq

/-- JS `Math.round` on a (finite, non-`NaN`) number: the ECMAScript spec's
round-half-toward-positive-infinity, i.e. `⌊q + 1/2⌋`. -/
def jsRound (q : ℚ) : ℤ :=
  ⌊q + 1 / 2⌋

/-- The function `formatProgress(progressEvent)` from
`src/lib/model-loader.js`.  The
argument is `none` for a missing/null event.  A missing `progress` field
propagates as `none` (JS `NaN`); `file` is passed through verbatim. -/
def formatProgress : Option ProgressEvent → ProgressDisplay
  | none => { percent := some 0, isIndeterminate := true, file := some "" }
  | some e =>
      if e.status ≠ "progress" then
        { percent := some 0, isIndeterminate := true, file := some "" }
      else
        { percent := e.progress.map jsRound
          isIndeterminate := false
          file := e.file }

/-- The `{ pipeline, model }` record `loadWithFallback` returns on
success. -/
structure FallbackResult (V : Type) where
  pipeline : V
  model : String
deriving DecidableEq

/-- The function `loadWithFallback(loaderFn, task, models, options)` from
`src/pages/summarize/summarize-logic.js`: try the models in list order,
return the first non-null result wrapped with its model id, else `none`.
The loader is modelled as a function (the awaited value of each call). -/
def loadWithFallback {V : Type}
    (loaderFn : String → String → List (String × JsVal) → Option V)
    (task : String) : List String → List (String × JsVal) →
    Option (FallbackResult V)
  | [], _ => none
  | m :: ms, options =>
      match loaderFn task m options with
      | some r => some { pipeline := r, model := m }
      | none => loadWithFallback loaderFn task ms options

/-- The sequence of model ids on which the `loadWithFallback` loop actually
invokes `loaderFn`, in invocation order (instrumentation of the same
loop: the loop body runs once per listed id). -/
def loadWithFallbackCalls {V : Type}
    (loaderFn : String → String → List (String × JsVal) → Option V)
    (task : String) : List String → List (String × JsVal) → List String
  | [], _ => []
  | m :: ms, options =>
      match loaderFn task m options with
      | some _ => [m]
      | none => m :: loadWithFallbackCalls loaderFn task ms options

/-- Modelled from the spec (for comparison with `nextModelStatus`): the
transition table as the spec states it — the four listed transitions, and
every other (state, event) pair leaves the state unchanged. -/
def nextModelStatusSpec (current event : String) : String :=
  if current = "idle" ∧ event = "LOAD_START" then "loading"
  else if current = "loading" ∧ event = "LOAD_SUCCESS" then "ready"
  else if current = "loading" ∧ event = "LOAD_FAILURE" then "error"
  else if current = "error" ∧ event = "RETRY" then "loading"
  else current

/-- Modelled from the spec (for comparison with `jsRound`): standard
round-half-up — take the ceiling when the fractional part is at least one
half, the floor otherwise. -/
def roundHalfUp (q : ℚ) : ℤ :=
  if 1 / 2 ≤ q - ⌊q⌋ then ⌈q⌉ else ⌊q⌋

/-- Modelled from the spec (for comparison with `formatProgress`): absent
or non-"progress" events give the indeterminate shape; otherwise percent is
the round-half-up of the numeric percentage and file is the event's file. -/
def formatProgressSpec : Option ProgressEvent → ProgressDisplay
  | none => { percent := some 0, isIndeterminate := true, file := some "" }
  | some e =>
      if e.status = "progress" then
        { percent := e.progress.map roundHalfUp
          isIndeterminate := false
          file := e.file }
      else
        { percent := some 0, isIndeterminate := true, file := some "" }

/-! ### Helper lemmas -/

theorem objGet_cons (kv : String × JsVal) (rest : List (String × JsVal))
    (k : String) :
    objGet (kv :: rest) k = if kv.1 = k then some kv.2 else objGet rest k := by
  by_cases h : kv.1 = k
  · simp [objGet, List.find?_cons_of_pos, h]
  · simp [objGet, List.find?_cons_of_neg, h]

theorem objGet_objSet_self (obj : List (String × JsVal)) (k : String)
    (v : JsVal) : objGet (objSet obj k v) k = some v := by
  induction obj with
  | nil => simp [objSet, objGet_cons, objGet]
  | cons kv rest ih =>
    by_cases h : kv.1 = k
    · simp [objSet, h, objGet_cons]
    · simp [objSet, h, objGet_cons, ih]

theorem objGet_objSet_ne (obj : List (String × JsVal)) (k k' : String)
    (v : JsVal) (h : k' ≠ k) : objGet (objSet obj k v) k' = objGet obj k' := by
  induction obj with
  | nil =>
    rw [objSet, objGet_cons, if_neg (fun hh => h hh.symm)]
  | cons kv rest ih =>
    by_cases hk : kv.1 = k
    · rw [objSet, if_pos hk, objGet_cons, objGet_cons, hk,
        if_neg (fun hh => h hh.symm), if_neg (fun hh => h hh.symm)]
    · rw [objSet, if_neg hk, objGet_cons, objGet_cons, ih]

theorem objGet_none_of_not_mem (obj : List (String × JsVal)) (k : String)
    (h : k ∉ obj.map Prod.fst) : objGet obj k = none := by
  induction obj with
  | nil => simp [objGet]
  | cons kv rest ih =>
    simp only [List.map_cons, List.mem_cons] at h
    push_neg at h
    rw [objGet_cons, if_neg (fun hh => h.1 hh.symm)]
    exact ih h.2

theorem objGet_objSpread_none (base ext : List (String × JsVal)) (k : String)
    (h : objGet ext k = none) :
    objGet (objSpread base ext) k = objGet base k := by
  induction ext generalizing base with
  | nil => rfl
  | cons kv rest ih =>
    rw [objGet_cons] at h
    by_cases hk : kv.1 = k
    · simp [hk] at h
    · rw [if_neg hk] at h
      show objGet (objSpread (objSet base kv.1 kv.2) rest) k = objGet base k
      rw [ih _ h, objGet_objSet_ne _ _ _ _ (fun hh => hk hh.symm)]

theorem objGet_objSpread_some (base ext : List (String × JsVal)) (k : String)
    (v : JsVal) (hnd : (ext.map Prod.fst).Nodup) (h : objGet ext k = some v) :
    objGet (objSpread base ext) k = some v := by
  induction ext generalizing base with
  | nil => simp [objGet] at h
  | cons kv rest ih =>
    simp only [List.map_cons, List.nodup_cons] at hnd
    rw [objGet_cons] at h
    by_cases hk : kv.1 = k
    · rw [if_pos hk] at h
      obtain rfl := Option.some_injective _ h
      show objGet (objSpread (objSet base kv.1 kv.2) rest) k = some kv.2
      rw [objGet_objSpread_none _ _ _ (objGet_none_of_not_mem _ _ (hk ▸ hnd.1)),
        hk, objGet_objSet_self]
    · rw [if_neg hk] at h
      exact ih _ hnd.2 h

theorem assocGet_append_of_none {α : Type} (l l' : List (String × α))
    (key : String) (h : assocGet l key = none) :
    assocGet (l ++ l') key = assocGet l' key := by
  induction l with
  | nil => rfl
  | cons kv rest ih =>
    obtain ⟨k, v⟩ := kv
    rw [assocGet] at h
    by_cases hk : key = k
    · simp [hk] at h
    · rw [if_neg hk] at h
      rw [List.cons_append, assocGet, if_neg hk]
      exact ih h

theorem assocGet_filter_ne_self {α : Type} (l : List (String × α))
    (key : String) :
    assocGet (l.filter (fun kv => kv.1 ≠ key)) key = none := by
  induction l with
  | nil => rfl
  | cons kv rest ih =>
    by_cases hk : kv.1 = key
    · simpa [List.filter, hk] using ih
    · rw [List.filter_cons_of_pos (by simpa using hk), assocGet,
        if_neg (fun hh => hk hh.symm)]
      exact ih

theorem jsRound_eq_roundHalfUp (q : ℚ) : jsRound q = roundHalfUp q := by
  unfold jsRound roundHalfUp
  have hf := Int.floor_le q
  have hc := Int.lt_floor_add_one q
  by_cases h : (1 : ℚ) / 2 ≤ q - ⌊q⌋
  · rw [if_pos h]
    have hceil : ⌈q⌉ = ⌊q⌋ + 1 := by
      rw [Int.ceil_eq_iff]
      constructor
      · push_cast
        linarith
      · push_cast
        linarith
    rw [hceil, Int.floor_eq_iff]
    constructor
    · push_cast
      linarith
    · push_cast
      linarith
  · rw [if_neg h]
    push_neg at h
    rw [Int.floor_eq_iff]
    exact ⟨by linarith, by linarith⟩

theorem append_colon_sep_inj : ∀ (a b m1 m2 : List Char),
    ':' ∉ a → ':' ∉ b →
    a ++ ':' :: ':' :: m1 = b ++ ':' :: ':' :: m2 → a = b ∧ m1 = m2 := by
  intro a
  induction a with
  | nil =>
    intro b m1 m2 _ hb h
    cases b with
    | nil => simpa using h
    | cons c bs =>
      simp only [List.nil_append, List.cons_append, List.cons.injEq] at h
      obtain ⟨hc, -⟩ := h
      subst hc
      exact absurd (List.mem_cons_self _ _) hb
  | cons c as ih =>
    intro b m1 m2 ha hb h
    cases b with
    | nil =>
      simp only [List.cons_append, List.nil_append, List.cons.injEq] at h
      obtain ⟨hc, -⟩ := h
      subst hc
      exact absurd (List.mem_cons_self _ _) ha
    | cons d bs =>
      simp only [List.cons_append, List.cons.injEq] at h
      obtain ⟨rfl, h2⟩ := h
      have := ih bs m1 m2 (fun hx => ha (List.mem_cons_of_mem _ hx))
        (fun hx => hb (List.mem_cons_of_mem _ hx)) h2
      exact ⟨by rw [this.1], this.2⟩

theorem mkLoadKey_data (t m : String) :
    (mkLoadKey t m).data = t.data ++ ':' :: ':' :: m.data := by
  simp [mkLoadKey, String.data_append]


theorem loadModel_eq (task model : String) (opts : List (String × JsVal))
    (st : LoaderState) :
    loadModel task model opts st =
      match assocGet st.cache (mkLoadKey task model) with
      | some p => (p, st)
      | none =>
          (st.nextId,
           { cache := st.cache ++ [(mkLoadKey task model, st.nextId)]
             nextId := st.nextId + 1
             calls := st.calls ++ [(task, model, buildPipelineOptions opts)] }) :=
  rfl

theorem loadModel_hit (task model : String) (opts : List (String × JsVal))
    (st : LoaderState) (p : Nat)
    (h : assocGet st.cache (mkLoadKey task model) = some p) :
    loadModel task model opts st = (p, st) := by
  rw [loadModel_eq, h]

theorem loadModel_miss (task model : String) (opts : List (String × JsVal))
    (st : LoaderState)
    (h : assocGet st.cache (mkLoadKey task model) = none) :
    loadModel task model opts st =
      (st.nextId,
       { cache := st.cache ++ [(mkLoadKey task model, st.nextId)]
         nextId := st.nextId + 1
         calls := st.calls ++ [(task, model, buildPipelineOptions opts)] }) := by
  rw [loadModel_eq, h]

/-! ### Claim theorems -/

set_option maxRecDepth 4000

/-- C1: While the cache holds a live entry for a (task, model) pair's
LoadKey, `loadModel` returns the reference-identical stored promise and
starts no new acquisition (the state, including the invocation record, is
untouched); and two calls made before the first settles yield the same
promise reference, with the injected `pipelineFn` invoked exactly once for
that key. -/
theorem c1_loadModel_dedup (task model : String)
    (opts1 opts2 : List (String × JsVal)) (st : LoaderState) :
    (∀ p, assocGet st.cache (mkLoadKey task model) = some p →
        loadModel task model opts1 st = (p, st)) ∧
    (assocGet st.cache (mkLoadKey task model) = none →
        (loadModel task model opts2 (loadModel task model opts1 st).2).1 =
          (loadModel task model opts1 st).1 ∧
        (loadModel task model opts2 (loadModel task model opts1 st).2).2 =
          (loadModel task model opts1 st).2 ∧
        (loadModel task model opts1 st).2.calls =
          st.calls ++ [(task, model, buildPipelineOptions opts1)]) := by
  constructor
  · intro p hp
    exact loadModel_hit task model opts1 st p hp
  · intro hnone
    have h2 : assocGet (st.cache ++ [(mkLoadKey task model, st.nextId)])
        (mkLoadKey task model) = some st.nextId := by
      rw [assocGet_append_of_none _ _ _ hnone, assocGet, if_pos rfl]
    rw [loadModel_miss task model opts1 st hnone]
    exact ⟨congrArg Prod.fst (loadModel_hit task model opts2 _ st.nextId h2),
      congrArg Prod.snd (loadModel_hit task model opts2 _ st.nextId h2), rfl⟩

/-- C1 witness: a populated cache returns the stored promise 7 untouched,
and a back-to-back pair of calls from an empty state share one promise and
record a single pipeline invocation. -/
theorem c1_loadModel_dedup_witness :
    loadModel "sentiment-analysis" "model-a" []
        { cache := [("sentiment-analysis::model-a", 7)], nextId := 8, calls := [] } =
      (7, { cache := [("sentiment-analysis::model-a", 7)], nextId := 8, calls := [] }) ∧
    ((loadModel "t" "m" []
        (loadModel "t" "m" [] { cache := [], nextId := 0, calls := [] }).2).1 =
      (loadModel "t" "m" [] { cache := [], nextId := 0, calls := [] }).1 ∧
     (loadModel "t" "m" []
        (loadModel "t" "m" [] { cache := [], nextId := 0, calls := [] }).2).2 =
      (loadModel "t" "m" [] { cache := [], nextId := 0, calls := [] }).2 ∧
     (loadModel "t" "m" [] { cache := [], nextId := 0, calls := [] }).2.calls =
      ([] : List (String × String × List (String × JsVal))) ++
        [("t", "m", buildPipelineOptions [])]) := by
  exact ⟨(c1_loadModel_dedup "sentiment-analysis" "model-a" [] []
      { cache := [("sentiment-analysis::model-a", 7)], nextId := 8, calls := [] }).1
      7 (by decide),
    (c1_loadModel_dedup "t" "m" [] [] { cache := [], nextId := 0, calls := [] }).2 rfl⟩

/-- C2: When the acquisition for a LoadKey rejects, the promise settles to
`none` (the null sentinel — the result type has no rejection channel), the
cache entry for that key is removed, and a subsequent `loadModel` for the
same pair records a fresh `pipelineFn` invocation. -/
theorem c2_failure_evicts_and_retries {V : Type} (task model err : String)
    (opts : List (String × JsVal)) (st : LoaderState) :
    (settlePromise (mkLoadKey task model) (Except.error err : Except String V) st).1 =
      none ∧
    assocGet (settlePromise (mkLoadKey task model)
        (Except.error err : Except String V) st).2.cache (mkLoadKey task model) =
      none ∧
    (loadModel task model opts (settlePromise (mkLoadKey task model)
        (Except.error err : Except String V) st).2).2.calls =
      (settlePromise (mkLoadKey task model)
        (Except.error err : Except String V) st).2.calls ++
        [(task, model, buildPipelineOptions opts)] := by
  refine ⟨rfl, assocGet_filter_ne_self _ _, ?_⟩
  rw [loadModel_miss task model opts _ (assocGet_filter_ne_self _ _)]

/-- C3: `loadWithFallback` tries the models strictly in list order and, at
the first model whose load is non-null, returns that result paired with the
model id immediately, invoking the loader on no later model: with the list
split as `pre ++ m :: post` where every model of `pre` fails and `m`
succeeds with `r`, the result is `{ pipeline := r, model := m }` and the
invocation sequence is exactly `pre ++ [m]`. -/
theorem c3_loadWithFallback_first_success {V : Type}
    (loaderFn : String → String → List (String × JsVal) → Option V)
    (task : String) (options : List (String × JsVal))
    (pre post : List String) (m : String) (r : V)
    (hpre : ∀ x ∈ pre, loaderFn task x options = none)
    (hm : loaderFn task m options = some r) :
    loadWithFallback loaderFn task (pre ++ m :: post) options =
      some { pipeline := r, model := m } ∧
    loadWithFallbackCalls loaderFn task (pre ++ m :: post) options = pre ++ [m] := by
  induction pre with
  | nil => simp [loadWithFallback, loadWithFallbackCalls, hm]
  | cons x xs ih =>
    have hx : loaderFn task x options = none := hpre x (List.mem_cons_self _ _)
    have hrec := ih (fun y hy => hpre y (List.mem_cons_of_mem _ hy))
    simp [loadWithFallback, loadWithFallbackCalls, hx, hrec.1, hrec.2]

/-- C3 witness: a three-model list where only the second succeeds returns
the second model's result and invokes the loader exactly twice. -/
theorem c3_loadWithFallback_first_success_witness :
    loadWithFallback (fun _ m _ => if m = "b" then some 1 else none)
        "summarization" (["a"] ++ "b" :: ["c"]) [] =
      some { pipeline := 1, model := "b" } ∧
    loadWithFallbackCalls (fun _ m _ => if m = "b" then some 1 else none)
        "summarization" (["a"] ++ "b" :: ["c"]) [] = ["a"] ++ ["b"] := by
  exact c3_loadWithFallback_first_success
    (fun _ m _ => if m = "b" then some (1 : Nat) else none)
    "summarization" [] ["a"] ["c"] "b" 1 (by decide) (by decide)

/-- C4: When the loader returns null on every model of the list,
`loadWithFallback` returns null without throwing and the loader is invoked
exactly once per listed model, in order. -/
theorem c4_loadWithFallback_all_fail {V : Type}
    (loaderFn : String → String → List (String × JsVal) → Option V)
    (task : String) (options : List (String × JsVal)) (models : List String)
    (hall : ∀ x ∈ models, loaderFn task x options = none) :
    loadWithFallback loaderFn task models options = none ∧
    loadWithFallbackCalls loaderFn task models options = models := by
  induction models with
  | nil => exact ⟨rfl, rfl⟩
  | cons x xs ih =>
    have hx : loaderFn task x options = none := hall x (List.mem_cons_self _ _)
    have hrec := ih (fun y hy => hall y (List.mem_cons_of_mem _ hy))
    simp [loadWithFallback, loadWithFallbackCalls, hx, hrec.1, hrec.2]

/-- C4 witness: over a three-model list that always fails, the result is
null and the loader ran exactly three times. -/
theorem c4_loadWithFallback_all_fail_witness :
    loadWithFallback (fun _ _ _ => (none : Option Nat))
        "summarization" ["a", "b", "c"] [] = none ∧
    loadWithFallbackCalls (fun _ _ _ => (none : Option Nat))
        "summarization" ["a", "b", "c"] [] = ["a", "b", "c"] := by
  exact c4_loadWithFallback_all_fail (fun _ _ _ => (none : Option Nat))
    "summarization" [] ["a", "b", "c"] (by decide)

/-- C5: `nextModelStatus` is a pure total function realizing exactly the
spec's transition table: the four listed transitions fire, every other
(state, event) combination — including every event from `ready` — leaves
the state unchanged. -/
theorem c5_nextModelStatus_realizes_table (current event : String) :
    nextModelStatus current event = nextModelStatusSpec current event := by
  unfold nextModelStatus nextModelStatusSpec transitions
  simp only [assocGet]
  split_ifs <;> simp_all [assocGet]

/-- C6: `formatProgress` agrees everywhere with the spec's description:
absent or non-"progress" inputs give `{ percent := 0, isIndeterminate :=
true, file := "" }`, and a "progress" event gives the round-half-up of its
numeric percentage, `isIndeterminate := false`, and the event's file. -/
theorem c6_formatProgress_matches_spec (pe : Option ProgressEvent) :
    formatProgress pe = formatProgressSpec pe := by
  cases pe with
  | none => rfl
  | some e =>
    by_cases h : e.status = "progress"
    · cases hp : e.progress with
      | none => simp [formatProgress, formatProgressSpec, h, hp]
      | some q =>
        simp [formatProgress, formatProgressSpec, h, hp, jsRound_eq_roundHalfUp]
    · simp [formatProgress, formatProgressSpec, h]

/-- C6 scenario fact: a "progress" event at 45.7 formats to percent 46. -/
theorem c6_formatProgress_scenario :
    formatProgress (some ⟨"progress", some "model.onnx", some (457 / 10)⟩) =
      { percent := some 46, isIndeterminate := false, file := some "model.onnx" } := by
  simp only [formatProgress, Option.map]
  norm_num [jsRound]

/-- C9 counterexample: the claim fails in real JS because property access
walks the prototype chain — `nextModelStatus("idle", "toString")` evaluates
`transitions["idle"]["toString"]`, which finds the inherited (non-nullish)
`Object.prototype.toString` function, so the `?? current` fallback does not
apply and the result is that function, not the string "idle". -/
theorem c9_proto_counterexample :
    nextModelStatusJs "idle" "toString" =
      JsLookup.protoVal "Object.prototype.toString" ∧
    nextModelStatusJs "idle" "toString" ≠ JsLookup.statusStr "idle" := by
  decide

/-- C9 (amended): `nextModelStatus` is total over arbitrary strings and
returns `current` unchanged exactly where the lookups find no property at
all: when `current` has no transition row and is not an `Object.prototype`
property name, or when `current` has a row and `event` is neither a key of
that row nor an `Object.prototype` property name.  Inherited names escape
the nullish fallback (see the counterexample above). -/
theorem c9_nextModelStatus_safe_domain (current event : String)
    (h : (assocGet transitions current = none ∧ current ∉ objectProtoProps) ∨
      (∃ row, assocGet transitions current = some row ∧
        assocGet row event = none ∧ event ∉ objectProtoProps)) :
    nextModelStatusJs current event = JsLookup.statusStr current := by
  unfold nextModelStatusJs
  rcases h with ⟨h1, h2⟩ | ⟨row, h1, h2, h3⟩
  · simp [h1, h2]
  · simp [h1, h2, h3]

/-- C9 witness: a state outside the four states and the inherited names is
returned unchanged, and so is `ready` on an event outside its (empty) row
and the inherited names. -/
theorem c9_nextModelStatus_safe_domain_witness :
    nextModelStatusJs "bogus" "LOAD_START" = JsLookup.statusStr "bogus" ∧
    nextModelStatusJs "ready" "LOAD_START" = JsLookup.statusStr "ready" :=
  ⟨c9_nextModelStatus_safe_domain "bogus" "LOAD_START" (Or.inl (by decide)),
   c9_nextModelStatus_safe_domain "ready" "LOAD_START"
     (Or.inr ⟨[], by decide, by decide, by decide⟩)⟩

/-- C10: on a "progress"-tagged event `formatProgress` neither clamps nor
validates: percent is the rounded `progress` verbatim (150 stays 150, an
absent `progress` yields the NaN sentinel `none`) and `file` is passed
through verbatim (`none` for an absent property). -/
theorem c10_formatProgress_no_clamp :
    (∀ e : ProgressEvent, e.status = "progress" →
        formatProgress (some e) =
          { percent := e.progress.map jsRound, isIndeterminate := false,
            file := e.file }) ∧
    formatProgress (some ⟨"progress", some "big.onnx", some 150⟩) =
      { percent := some 150, isIndeterminate := false, file := some "big.onnx" } ∧
    formatProgress (some ⟨"progress", none, none⟩) =
      { percent := none, isIndeterminate := false, file := none } := by
  refine ⟨?_, ?_, rfl⟩
  · intro e he
    simp [formatProgress, he]
  · simp only [formatProgress, Option.map]
    norm_num [jsRound]

/-- C10 witness: a concrete "progress" event is formatted with its rounded
percentage and verbatim file. -/
theorem c10_formatProgress_no_clamp_witness :
    formatProgress (some ⟨"progress", some "model.onnx", some 5⟩) =
      { percent := some 5, isIndeterminate := false, file := some "model.onnx" } := by
  have h := c10_formatProgress_no_clamp.1
    ⟨"progress", some "model.onnx", some 5⟩ rfl
  rw [h]
  simp only [Option.map]
  norm_num [jsRound]

/-- C7: the options object handed to `pipelineFn` merges with precedence
defaults < translated progress < passthrough overrides: `dtype` defaults to
`'q8'`, the caller's `onProgress` becomes `progress_callback`, and every
remaining caller-supplied property is forwarded and overrides the defaults
(a passthrough `dtype` wins over `'q8'`). -/
theorem c7_options_merge (callerOpts : List (String × JsVal))
    (hnd : (callerOpts.map Prod.fst).Nodup) :
    (objGet (callerOpts.filter (fun kv => kv.1 ≠ "onProgress")) "dtype" = none →
        objGet (buildPipelineOptions callerOpts) "dtype" = some (.str "q8")) ∧
    (objGet (callerOpts.filter (fun kv => kv.1 ≠ "onProgress"))
        "progress_callback" = none →
      objGet (buildPipelineOptions callerOpts) "progress_callback" =
        some (jsOr ((objGet callerOpts "onProgress").getD .undef) .undef)) ∧
    (∀ k v, objGet (callerOpts.filter (fun kv => kv.1 ≠ "onProgress")) k = some v →
        objGet (buildPipelineOptions callerOpts) k = some v) := by
  have hrest : ((callerOpts.filter (fun kv => kv.1 ≠ "onProgress")).map
      Prod.fst).Nodup :=
    hnd.sublist ((List.filter_sublist _).map _)
  refine ⟨?_, ?_, ?_⟩
  · intro h
    rw [buildPipelineOptions, objGet_objSpread_none _ _ _ h]
    rfl
  · intro h
    rw [buildPipelineOptions, objGet_objSpread_none _ _ _ h]
    rfl
  · intro k v h
    rw [buildPipelineOptions]
    exact objGet_objSpread_some _ _ _ _ hrest h

/-- C7 witness: with only `onProgress` supplied, `dtype` is the `q8`
default and `progress_callback` is the caller's callback; a passthrough
`dtype` overrides the default. -/
theorem c7_options_merge_witness :
    objGet (buildPipelineOptions [("onProgress", .fn 1)]) "dtype" =
      some (.str "q8") ∧
    objGet (buildPipelineOptions [("onProgress", .fn 1)]) "progress_callback" =
      some (.fn 1) ∧
    objGet (buildPipelineOptions [("dtype", .str "q4")]) "dtype" =
      some (.str "q4") := by
  refine ⟨?_, ?_, ?_⟩
  · exact (c7_options_merge [("onProgress", .fn 1)] (by decide)).1 (by decide)
  · have h := (c7_options_merge [("onProgress", .fn 1)] (by decide)).2.1 (by decide)
    rw [h]
    decide
  · exact (c7_options_merge [("dtype", .str "q4")] (by decide)).2.2 "dtype"
      (.str "q4") (by decide)

/-- C8 counterexample: the `::`-concatenation is not injective over all
non-empty identifiers — the distinct pairs ("a", "b::c") and ("a::b", "c")
share the LoadKey "a::b::c". -/
theorem c8_loadKey_counterexample :
    mkLoadKey "a" "b::c" = mkLoadKey "a::b" "c" ∧
    (("a" : String), ("b::c" : String)) ≠ (("a::b" : String), ("c" : String)) ∧
    ("a" : String) ≠ "" ∧ ("b::c" : String) ≠ "" ∧
    ("a::b" : String) ≠ "" ∧ ("c" : String) ≠ "" := by
  decide

/-- C8 (amended): the LoadKey construction is injective on pairs whose task
identifiers contain no colon character — distinct such (task, model) pairs
always get distinct keys, so they never share a cache entry. -/
theorem c8_loadKey_injective (t1 m1 t2 m2 : String)
    (h1 : ':' ∉ t1.data) (h2 : ':' ∉ t2.data)
    (h : mkLoadKey t1 m1 = mkLoadKey t2 m2) : t1 = t2 ∧ m1 = m2 := by
  have hd : (mkLoadKey t1 m1).data = (mkLoadKey t2 m2).data := by rw [h]
  rw [mkLoadKey_data, mkLoadKey_data] at hd
  have hres := append_colon_sep_inj t1.data t2.data m1.data m2.data h1 h2 hd
  exact ⟨String.ext hres.1, String.ext hres.2⟩

/-- C8 witness: the injectivity theorem applied at colon-free task
identifiers. -/
theorem c8_loadKey_injective_witness :
    ("summarization" : String) = "summarization" ∧
    ("model-a" : String) = "model-a" :=
  c8_loadKey_injective "summarization" "model-a" "summarization" "model-a"
    (by decide) (by decide) rfl
